import Mathlib

/-!
Verification of the navajo HTTP/1.1 server core.

A shallow embedding of the request parser (`navajo/protocols/http/parser.py`),
the connection protocol (`navajo/protocols/http/protocol.py`) and the response
handlers (`navajo/protocols/http/handlers.py`).

Python byte strings and (latin-1 decoded) text strings are both modelled as
`List Nat` of code points: `bytes.decode('latin1')` and `str.encode('latin1')`
are bijections between bytes and the code points 0..255, so decoding/encoding
steps in the source become the identity here.  Python exceptions are modelled
with `Except PyExc`; a `.error` result corresponds to the Python function
raising.  Helper functions reproduce the exact Python semantics of the string
and integer operations the source uses (`find`, `split`, slicing with negative
indices, `int(s)` / `int(s, 16)`, `str.strip`, `str.lower`, `bytes.lower`).
-/

set_option maxRecDepth 4000

abbrev Byte := Nat
abbrev Bytes := List Nat

/-- Code points of a Lean string literal; used to write ASCII byte-string
literals compactly.  All literals in this development are ASCII, where the
Unicode code point equals the latin-1 byte. -/
def bs (s : String) : Bytes := s.toList.map Char.toNat

def CRLF : Bytes := [13, 10]

def CRLFCRLF : Bytes := [13, 10, 13, 10]

/-- Python exceptions that the modelled code can raise. -/
inductive PyExc where
  /-- `ValueError`, e.g. from `int()` on a malformed literal. -/
  | valueError : PyExc
  /-- `TypeError`, e.g. from `bytes(s)` on a `str` without an encoding. -/
  | typeError : PyExc
  /-- `AttributeError`, e.g. from accessing a missing attribute. -/
  | attributeError : PyExc
  /-- `navajo.utils.BadRequestError`. -/
  | badRequestError : PyExc
  /-- `navajo.utils.UnsupportedProtocolError(version)`; carries the
  constructor argument (the list produced by `protocol.split('/')`). -/
  | unsupportedProtocolError (args : List Bytes) : PyExc
  /-- `RuntimeError`. -/
  | runtimeError : PyExc
  /-- Marker for inputs on which the Python loop being modelled does not
  terminate (fuel exhausted with no progress possible).  Never produced on
  the inputs any theorem below evaluates. -/
  | divergence : PyExc
deriving DecidableEq, Repr

/-- Python whitespace for `str.strip()` / `int()`: characters `c` in the
latin-1 range with `c.isspace()` true. -/
def pyIsSpace (c : Byte) : Bool :=
  c = 9 ∨ c = 10 ∨ c = 11 ∨ c = 12 ∨ c = 13 ∨ c = 28 ∨ c = 29 ∨ c = 30 ∨
    c = 31 ∨ c = 32 ∨ c = 133 ∨ c = 160

/-- Python `str.strip()` (no argument): remove leading and trailing
whitespace. -/
def pyStrip (s : Bytes) : Bytes :=
  ((s.dropWhile pyIsSpace).reverse.dropWhile pyIsSpace).reverse

/-- Python `str.lower()` restricted to latin-1 text: ASCII `A`-`Z` and the
latin-1 uppercase letters `À`-`Þ` (except `×`) map to their lowercase forms;
everything else is unchanged. -/
def strLower (s : Bytes) : Bytes :=
  s.map fun c =>
    if 65 ≤ c ∧ c ≤ 90 then c + 32
    else if 192 ≤ c ∧ c ≤ 222 ∧ c ≠ 215 then c + 32
    else c

/-- Python `bytes.lower()`: ASCII-only lowercasing. -/
def bytesLower (s : Bytes) : Bytes :=
  s.map fun c => if 65 ≤ c ∧ c ≤ 90 then c + 32 else c

/-- First index at which `sub` occurs in `s` (Python `find` when it does not
return `-1`). -/
def pyFind? (s sub : Bytes) : Option Nat :=
  if sub.isPrefixOf s then some 0
  else
    match s with
    | [] => none
    | _ :: t => (pyFind? t sub).map (· + 1)

/-- Python `bytes.find` / `str.find`: index of the first occurrence, `-1` if
absent. -/
def pyFindI (s sub : Bytes) : Int :=
  match pyFind? s sub with
  | none => -1
  | some i => (i : Int)

/-- Normalisation of a Python slice endpoint: negative indices count from the
end, out-of-range indices clamp. -/
def pySliceIdx (len : Nat) (i : Int) : Nat :=
  if i < 0 then ((len : Int) + i).toNat else min i.toNat len

/-- Python slice `l[a:b]` with full negative-index and clamping semantics. -/
def pySlice (l : Bytes) (a b : Int) : Bytes :=
  (l.take (pySliceIdx l.length b)).drop (pySliceIdx l.length a)

/-- Python slice `l[a:]`. -/
def pyDropI (l : Bytes) (a : Int) : Bytes :=
  l.drop (pySliceIdx l.length a)

/-- Python `s.find(sub, start)`: first occurrence at or after `start`,
`-1` if absent. -/
def pyFindFromI (s sub : Bytes) (start : Int) : Int :=
  let st := pySliceIdx s.length start
  match pyFind? (s.drop st) sub with
  | none => -1
  | some i => ((st + i : Nat) : Int)

theorem pyFind?_bound (s sub : Bytes) (i : Nat) (h : pyFind? s sub = some i) :
    i + sub.length ≤ s.length := by
  induction s generalizing i with
  | nil =>
    rw [pyFind?] at h
    split at h
    · next hp =>
      simp only [Option.some.injEq] at h
      subst h
      have := List.isPrefixOf_iff_prefix.mp hp
      simpa using this.length_le
    · exact absurd h (by simp)
  | cons c t ih =>
    rw [pyFind?] at h
    split at h
    · next hp =>
      simp only [Option.some.injEq] at h
      subst h
      have := List.isPrefixOf_iff_prefix.mp hp
      simpa using this.length_le
    · simp only [Option.map_eq_some'] at h
      obtain ⟨j, hj, rfl⟩ := h
      have := ih j hj
      simp only [List.length_cons]
      omega

/-- Fuel-driven splitting loop: each step consumes at least `sep.length ≥ 1`
bytes, so fuel `s.length` suffices (when it runs out the remaining piece is
empty, and the result coincides with the unbounded loop). -/
def pySplitAux (sep : Bytes) : Nat → Bytes → List Bytes
  | 0, s => [s]
  | fuel + 1, s =>
    match pyFind? s sep with
    | none => [s]
    | some i => s.take i :: pySplitAux sep fuel (s.drop (i + sep.length))

/-- Python `s.split(sep)` for a non-empty separator sequence: non-overlapping
leftmost splitting, keeping empty pieces.  (Python raises on an empty
separator; the source never passes one, and we return `[s]` there.) -/
def pySplit (sep s : Bytes) : List Bytes :=
  if sep = [] then [s] else pySplitAux sep s.length s

/-- Python `s.split(sep, 1)`: split at the first occurrence only. -/
def pySplit1 (sep s : Bytes) : List Bytes :=
  match pyFind? s sep with
  | none => [s]
  | some i => [s.take i, s.drop (i + sep.length)]

/-- `True` iff `c` is an ASCII decimal digit. -/
def isDecDigit (c : Byte) : Bool := 48 ≤ c ∧ c ≤ 57

/-- `True` iff `c` is an ASCII hexadecimal digit. -/
def isHexDigit (c : Byte) : Bool :=
  (48 ≤ c ∧ c ≤ 57) ∨ (97 ≤ c ∧ c ≤ 102) ∨ (65 ≤ c ∧ c ≤ 70)

/-- Numeric value of a (decimal or hexadecimal) digit character. -/
def digitVal (c : Byte) : Nat :=
  if c ≤ 57 then c - 48 else if c ≤ 70 then c - 55 else c - 87

/-- Checks the tail of a Python integer literal: digits with single
underscores allowed only between digits. -/
def pyDigitsTail (allowed : Byte → Bool) : Bytes → Bool
  | [] => true
  | 95 :: rest =>
    match rest with
    | [] => false
    | c :: rest2 => allowed c && pyDigitsTail allowed rest2
  | c :: rest => allowed c && pyDigitsTail allowed rest

/-- Checks a full (unsigned, unprefixed) Python integer literal body. -/
def pyDigitsOk (allowed : Byte → Bool) : Bytes → Bool
  | [] => false
  | c :: rest => allowed c && pyDigitsTail allowed rest

/-- Value of a digit string (underscores already removed). -/
def digitsToNat (base : Nat) (ds : Bytes) : Nat :=
  ds.foldl (fun a c => a * base + digitVal c) 0

/-- Python `int(s)` on latin-1 text: optional surrounding whitespace, optional
sign, decimal digits with underscores between digits.  `none` models
`ValueError`. -/
def pyIntDec (s : Bytes) : Option Int :=
  let t := pyStrip s
  let (sign, body) : Int × Bytes :=
    match t with
    | 43 :: r => (1, r)
    | 45 :: r => (-1, r)
    | r => (1, r)
  if pyDigitsOk isDecDigit body then
    some (sign * (digitsToNat 10 (body.filter (· ≠ 95)) : Int))
  else none

/-- Python `int(s, 16)`: like `pyIntDec` but hexadecimal, allowing an
optional `0x`/`0X` prefix (possibly followed by one underscore). -/
def pyIntHex (s : Bytes) : Option Int :=
  let t := pyStrip s
  let (sign, body0) : Int × Bytes :=
    match t with
    | 43 :: r => (1, r)
    | 45 :: r => (-1, r)
    | r => (1, r)
  let body1 : Bytes :=
    match body0 with
    | 48 :: 120 :: r => match r with | 95 :: r2 => r2 | _ => r
    | 48 :: 88 :: r => match r with | 95 :: r2 => r2 | _ => r
    | r => r
  if pyDigitsOk isHexDigit body1 then
    some (sign * (digitsToNat 16 (body1.filter (· ≠ 95)) : Int))
  else none

/-- Decimal digits of `n` (auxiliary, fuel-driven; fuel `n + 1` always
suffices). -/
def natToDecAux : Nat → Nat → Bytes
  | 0, _ => []
  | fuel + 1, n => if n < 10 then [48 + n] else natToDecAux fuel (n / 10) ++ [48 + n % 10]

/-- Python `str(n)` for a natural number. -/
def natToDec (n : Nat) : Bytes := natToDecAux (n + 1) n

/-- Python `str(n)` for an integer. -/
def intToDec (n : Int) : Bytes :=
  if n < 0 then 45 :: natToDec (-n).toNat else natToDec n.toNat

/-! ## The request parser (`navajo/protocols/http/parser.py`) -/

/-- `parser.ParserError`. -/
inductive ParserError where
  | badRequest : ParserError
  | lengthRequired : ParserError
deriving DecidableEq, Repr

/-- `parser.ParserState`. -/
inductive ParserState where
  | receivingHeaders : ParserState
  | receivingBody : ParserState
  | complete : ParserState
  | receivingChunks : ParserState
  | chunksComplete : ParserState
  | error : ParserState
deriving DecidableEq, Repr

/-- `parser.RequestBuffer`: the byte store together with the parser fields.
The `BytesIO` read cursor is not modelled: it affects only
`get_last_chunks`, which no claim below concerns. -/
structure RequestBuffer where
  buffer : Bytes
  state : ParserState
  contentLength : Option Int
  isChunked : Bool
  headersEnd : Option Nat
  error : Option ParserError
deriving DecidableEq, Repr

/-- `RequestBuffer.__init__`. -/
def freshBuffer : RequestBuffer :=
  { buffer := [], state := .receivingHeaders, contentLength := none,
    isChunked := false, headersEnd := none, error := none }

/-- `RequestBuffer._get_is_chunked`: the first `Transfer-Encoding:` line
(case-insensitive name) decides; its value must equal `chunked` exactly after
stripping. -/
def getIsChunked : List Bytes → Bool
  | [] => false
  | line :: rest =>
    if (bs "transfer-encoding:").isPrefixOf (strLower line) then
      pyStrip ((pySplit1 (bs ":") line).getD 1 []) = bs "chunked"
    else getIsChunked rest

/-- `RequestBuffer._get_content_length`: the first `Content-Length:` line
decides; its stripped value goes through `int()`, whose `ValueError` is not
caught anywhere in the parser. -/
def getContentLength : List Bytes → Except PyExc (Option Int)
  | [] => .ok none
  | line :: rest =>
    if (bs "content-length:").isPrefixOf (strLower line) then
      match pyIntDec (pyStrip ((pySplit1 (bs ":") line).getD 1 [])) with
      | none => .error .valueError
      | some n => .ok (some n)
    else getContentLength rest

/-- `RequestBuffer._get_http_method`: the request line must have exactly three
space-separated tokens (else `BadRequestError`); returns the first. -/
def getHttpMethod (headersData : Bytes) : Except PyExc Bytes :=
  let firstLine := pySplit (bs " ") ((pySplit CRLF headersData).headD [])
  if firstLine.length ≠ 3 then .error .badRequestError
  else .ok (firstLine.headD [])

/-- One pass of the `while chunks:` loop of `RequestBuffer._has_final_chunk`,
fuel-driven.  Each continuing iteration of the Python loop strictly shortens
`chunks` (a zero advance makes one of the guards raise), so fuel equal to the
initial length always suffices; the fuel-exhausted case is unreachable from
`hasFinalChunk`.  `.error ()` models raising `BadRequestError`. -/
def hasFinalChunkAux : Nat → Bytes → Except Unit Bool
  | 0, _ => .ok false
  | fuel + 1, chunks =>
    if chunks.isEmpty then .ok false
    else
      match pyFind? chunks CRLF with
      | none => .ok false
      | some cse =>
        let pre := chunks.take cse
        let sizeHex := (pySplit1 (bs ";") pre).headD []
        match pyIntHex sizeHex with
        | none => .error ()
        | some size =>
          if size = 0 then
            if chunks.length < cse + 4 then .ok false
            else if chunks.length = cse + 4 then
              if (chunks.take (cse + 4)).drop cse ≠ CRLFCRLF then .error ()
              else .ok true
            else .error ()
          else
            let full : Int := (cse : Int) + 2 + size + 2
            if full > (chunks.length : Int) then .ok false
            else if pySlice chunks ((cse : Int) + 2 + size) ((cse : Int) + 2 + size + 2) ≠ CRLF then
              .error ()
            else hasFinalChunkAux fuel (pyDropI chunks full)

/-- `RequestBuffer._has_final_chunk`, applied to `data[self._headers_end:]`. -/
def hasFinalChunk (chunks : Bytes) : Except Unit Bool :=
  hasFinalChunkAux chunks.length chunks

/-- `RequestBuffer._try_parse`.  The assignments to `self` are threaded in
source order; an uncaught exception (only the `ValueError` of
`_get_content_length`) is an `.error` result. -/
def tryParse (s : RequestBuffer) : Except PyExc RequestBuffer :=
  match s.state with
  | .receivingHeaders =>
    let data := s.buffer
    match pyFind? data CRLFCRLF with
    | none => .ok s
    | some sep =>
      let headersEnd := sep + 4
      let headersLines := pySplit CRLF (data.take sep)
      let isChunked := getIsChunked headersLines
      let s1 := { s with headersEnd := some headersEnd, isChunked := isChunked }
      if isChunked then
        let s2 := { s1 with state := .receivingChunks }
        if (data.length : Int) - (headersEnd : Int) > 0 then
          match hasFinalChunk (data.drop headersEnd) with
          | .ok true => .ok { s2 with state := .chunksComplete }
          | .ok false => .ok s2
          | .error () => .ok { s2 with state := .error, error := some .badRequest }
        else .ok s2
      else
        match getContentLength headersLines with
        | .error e => .error e
        | .ok cl =>
          let s2 := { s1 with contentLength := cl }
          match getHttpMethod (data.take sep) with
          | .error _ => .ok { s2 with state := .error, error := some .badRequest }
          | .ok m =>
            let bodyRequired := m = bs "PUT" ∨ m = bs "POST" ∨ m = bs "PATCH"
            if cl = none ∧ bodyRequired then
              .ok { s2 with state := .error, error := some .badRequest }
            else if (cl = none ∧ ¬bodyRequired) ∨ cl = some 0 then
              .ok { s2 with state := .complete }
            else
              let s3 := { s2 with state := .receivingBody }
              if (data.length : Int) - (headersEnd : Int) ≥ cl.getD 0 then
                .ok { s3 with state := .complete }
              else .ok s3
  | .receivingBody =>
    let he := s.headersEnd.getD 0
    if s.contentLength = none ∨
        (s.buffer.length : Int) - (he : Int) ≥ s.contentLength.getD 0 then
      .ok { s with state := .complete }
    else .ok s
  | .receivingChunks =>
    let he := s.headersEnd.getD 0
    match hasFinalChunk (s.buffer.drop he) with
    | .ok true => .ok { s with state := .chunksComplete }
    | .ok false => .ok s
    | .error () => .ok { s with state := .error, error := some .badRequest }
  | _ => .ok s

/-- `RequestBuffer.feed_data`: append then `_try_parse`.  (The boolean return
value is `state ∈ {COMPLETE, CHUNKS_COMPLETE}` of the result and carries no
extra information, so it is not returned separately.) -/
def feedData (s : RequestBuffer) (d : Bytes) : Except PyExc RequestBuffer :=
  tryParse { s with buffer := s.buffer ++ d }

/-- Feeding a list of fragments in order, as successive `feed_data` calls. -/
def feedList : RequestBuffer → List Bytes → Except PyExc RequestBuffer
  | s, [] => .ok s
  | s, p :: ps =>
    match feedData s p with
    | .error e => .error e
    | .ok s1 => feedList s1 ps

/-- `RequestBuffer.get_request_headers`: `data[:self._headers_end]` (a `None`
end slices to the end of the buffer), guarded by the state check that raises
`RuntimeError`. -/
def getRequestHeaders (s : RequestBuffer) : Except PyExc Bytes :=
  if s.state = .complete ∨ s.state = .chunksComplete ∨ s.state = .receivingBody ∨
      s.state = .receivingChunks then
    match s.headersEnd with
    | none => .ok s.buffer
    | some he => .ok (s.buffer.take he)
  else .error .runtimeError

/-- The dechunking `while chunk:` loop of `RequestBuffer.get_request_body`,
fuel-driven.  Unlike `_has_final_chunk` this loop re-parses sizes with an
uncaught `int(_, 16)` (`ValueError`) and has no trailing-CRLF check; on inputs
where an iteration makes no progress the Python loop runs forever, which the
fuel-exhausted `.error .divergence` marks (unreachable on every input
evaluated below). -/
def getChunkedBodyAux : Nat → Bytes → Except PyExc Bytes
  | 0, chunk => if chunk.isEmpty then .ok [] else .error .divergence
  | fuel + 1, chunk =>
    if chunk.isEmpty then .ok []
    else
      match pyFind? chunk CRLF with
      | none => .error .badRequestError
      | some cse =>
        let sizeHex := (pySplit1 (bs ";") (chunk.take cse)).headD []
        match pyIntHex sizeHex with
        | none => .error .valueError
        | some size =>
          let full : Int := (cse : Int) + 2 + size + 2
          if full > (chunk.length : Int) then .error .badRequestError
          else
            let chunkValue := pySlice chunk ((cse : Int) + 2) ((cse : Int) + size + 2)
            match getChunkedBodyAux fuel (pyDropI chunk full) with
            | .error e => .error e
            | .ok rest => .ok (chunkValue ++ rest)

/-- `RequestBuffer.get_request_body`.  In state `COMPLETE` the body is
`data[he:he + content_length]` when `content_length` is truthy (not `None`
and not `0`), else `b''`; in state `CHUNKS_COMPLETE` the chunk frames after
the header block are dechunked.  Any other state raises `RuntimeError`. -/
def getRequestBody (s : RequestBuffer) : Except PyExc Bytes :=
  if s.state = .complete then
    match s.contentLength with
    | none => .ok []
    | some cl =>
      if cl = 0 then .ok []
      else
        match s.headersEnd with
        | none => .error .typeError
        | some he => .ok (pySlice s.buffer (he : Int) ((he : Int) + cl))
  else if s.state = .chunksComplete then
    let chunk :=
      match s.headersEnd with
      | none => s.buffer
      | some he => s.buffer.drop he
    getChunkedBodyAux chunk.length chunk
  else .error .runtimeError

/-! ## `RequestBuffer.parse_headers` -/

/-- The ASGI-format result of `parse_headers` (its returned dict). -/
structure Scope where
  method : Bytes
  path : Bytes
  rawPath : Bytes
  queryString : Bytes
  headers : List (Bytes × Bytes)
  httpVersion : Bytes
deriving DecidableEq, Repr

/-- The closed method set checked by `parse_headers`. -/
def allowedMethods : List Bytes :=
  [bs "GET", bs "POST", bs "PUT", bs "DELETE", bs "HEAD", bs "CONNECT",
   bs "OPTIONS", bs "TRACE", bs "PATCH"]

/-- The header-line loop of `parse_headers` over `header_lines[1:]`: skips
empty lines and lines starting with `:`; a line without `:` raises
`BadRequestError` (unpacking `split(':', 1)` fails); otherwise records
`(name.strip().lower(), value.strip())` and notes a `Host` header whose raw
value (before stripping) is non-empty.  Returns the parsed pairs in order and
the `has_host` flag. -/
def parseHeaderLines : List Bytes → Except PyExc (List (Bytes × Bytes) × Bool)
  | [] => .ok ([], false)
  | line :: rest =>
    if line = [] ∨ line.headD 0 = 58 then parseHeaderLines rest
    else
      match pyFind? line (bs ":") with
      | none => .error .badRequestError
      | some i =>
        let name := line.take i
        let value := line.drop (i + 1)
        let hostHere := strLower (pyStrip name) = bs "host" ∧ value ≠ []
        match parseHeaderLines rest with
        | .error e => .error e
        | .ok (tailPairs, tailHost) =>
          .ok ((strLower (pyStrip name), pyStrip value) :: tailPairs,
               hostHere ∨ tailHost)

/-- `RequestBuffer.parse_headers`. -/
def parseHeaders (headers : Bytes) : Except PyExc Scope :=
  let headerLines := pySplit CRLF headers
  let firstLine := pySplit (bs " ") (headerLines.headD [])
  if firstLine.length ≠ 3 then .error .badRequestError
  else
    let method := firstLine.getD 0 []
    let fullPath := firstLine.getD 1 []
    let protocol := firstLine.getD 2 []
    if method ∉ allowedMethods then .error .badRequestError
    else
      let version := pySplit (bs "/") protocol
      if version.length ≠ 2 then .error .badRequestError
      else if version.getD 1 [] ∉ [bs "1.0", bs "1", bs "1.1"] then
        .error (.unsupportedProtocolError version)
      else
        let path := (pySplit (bs "?") fullPath).headD []
        let firstLineBytes := headerLines.headD []
        let rawPathStart : Int := pyFindI firstLineBytes (bs " ") + 1
        let rawQueryStart : Int := pyFindFromI firstLineBytes (bs "?") rawPathStart
        let (rawPath, query) : Bytes × Bytes :=
          if rawQueryStart = -1 then
            (pySlice firstLineBytes rawPathStart
               (pyFindFromI firstLineBytes (bs " ") rawPathStart), [])
          else
            (pySlice firstLineBytes rawPathStart rawQueryStart,
             pySlice firstLineBytes (rawQueryStart + 1)
               (pyFindFromI firstLineBytes (bs " ") rawQueryStart))
        match parseHeaderLines headerLines.tail with
        | .error e => .error e
        | .ok (parsedHeaders, hasHost) =>
          if hasHost = false then .error .badRequestError
          else
            .ok { method := method, path := path, rawPath := rawPath,
                  queryString := query, headers := parsedHeaders,
                  httpVersion := (pySplit (bs "/") protocol).getLastD [] }

/-! ## The connection protocol (`protocol.py`) and response writer
(`handlers.py`) -/

/-- `MAX_KEEP_ALIVE_REQUESTS` (protocol.py). -/
def MAX_KEEP_ALIVE_REQUESTS : Nat := 100

/-- The header scan of `HttpServerProtocol.should_keep_alive`: the first
scope header whose `bytes.lower()`-cased name is `connection` yields its
value; later headers are not examined. -/
def scanConnection : List (Bytes × Bytes) → Option Bytes
  | [] => none
  | (n, v) :: rest =>
    if bytesLower n = bs "connection" then some v else scanConnection rest

/-- `HttpServerProtocol.should_keep_alive`, as a function of the request
count, the scope headers and the scope HTTP version. -/
def shouldKeepAlive (requestCount : Nat) (headers : List (Bytes × Bytes))
    (httpVersion : Bytes) : Bool :=
  if requestCount ≥ MAX_KEEP_ALIVE_REQUESTS then false
  else
    match scanConnection headers with
    | some v => bytesLower v ≠ bs "close"
    | none => httpVersion = bs "1.1"

/-- The transport, reduced to what the modelled code observes: the list of
`write` payloads in order, and whether `close` was called. -/
structure Transport where
  writes : List Bytes
  closed : Bool
deriving DecidableEq, Repr

def freshTransport : Transport := { writes := [], closed := false }

/-- `ErrorResponseHandler.send_bad_request_response`. -/
def sendBadRequestResponse (t : Transport) : Transport :=
  { writes := t.writes ++
      [bs "HTTP/1.1 400 Bad Request\r\nContent-Type: text/plain\r\nConnection: close\r\n\r\n"],
    closed := true }

/-- `ErrorResponseHandler.send_length_required_response`. -/
def sendLengthRequiredResponse (t : Transport) : Transport :=
  { writes := t.writes ++
      [bs "HTTP/1.1 411 Length Required\r\nContent-Type: text/plain\r\nConnection: close\r\n\r\n"],
    closed := true }

/-- Python 3 `bytes(s)` for a `str` argument without an encoding: raises
`TypeError` (a string argument requires an encoding). -/
def pyBytesOfStr (s : Bytes) : Except PyExc Bytes := .error .typeError

/-- Attribute access `e.value` on an `UnsupportedProtocolError` instance:
the class (`class UnsupportedProtocolError(Exception): pass`) declares no
`value` attribute, so this raises `AttributeError`. -/
def excGetValueAttr (args : List Bytes) : Except PyExc Bytes := .error .attributeError

/-- `ErrorResponseHandler.send_protocol_error_response`: builds the 505
response, but `len(bytes(body))` in the `Content-Length` f-string calls
`bytes` on a `str` without an encoding and raises `TypeError` before
anything is written. -/
def sendProtocolErrorResponse (t : Transport) (errorMsg : Bytes) :
    Except PyExc Transport :=
  let body := bs "Unsupported protocol: " ++ errorMsg
  match pyBytesOfStr body with
  | .error e => .error e
  | .ok bodyB =>
    let contentLenHeader := bs "Content-Length: " ++ natToDec bodyB.length ++ CRLF
    match pyBytesOfStr contentLenHeader with
    | .error e => .error e
    | .ok clB =>
      .ok { writes := t.writes ++
              [bs "HTTP/1.1 505 HTTP Version Not Supported\r\nContent-Type: text/plain\r\nConnection: close\r\n" ++
                 clB ++ CRLF ++ bodyB],
            closed := true }

/-- `HttpServerProtocol.data_received`, restricted to the effects the claims
concern: parser feeding, header parsing, the error-response dispatch and the
buffer swap.  Timer manipulation and the spawning of the application task are
omitted (they do not touch the transport write trace); an `.error` result is
an exception escaping `data_received`. -/
def dataReceivedModel (t : Transport) (s0 : RequestBuffer) (data : Bytes) :
    Except PyExc (Transport × RequestBuffer) :=
  match feedData s0 data with
  | .error e => .error e
  | .ok s =>
    if s.state = .receivingChunks ∨ s.state = .chunksComplete ∨ s.state = .complete then
      match getRequestHeaders s with
      | .error .runtimeError => .ok (t, s)
      | .error e => .error e
      | .ok hdrs =>
        match parseHeaders hdrs with
        | .error (.unsupportedProtocolError args) =>
          (match excGetValueAttr args with
           | .error e => .error e
           | .ok msg =>
             match sendProtocolErrorResponse t msg with
             | .error e => .error e
             | .ok t1 => .ok (t1, s))
        | .error .badRequestError => .ok (sendBadRequestResponse t, s)
        | .error e => .error e
        | .ok _ =>
          .ok (t, if s.state = .chunksComplete ∨ s.state = .complete then freshBuffer else s)
    else if s.state = .error then
      if s.error = some .lengthRequired then .ok (sendLengthRequiredResponse t, s)
      else .ok (sendBadRequestResponse t, s)
    else .ok (t, s)

/-! ## The ASGI send path (`HttpServerProtocol._send` together with
`ASGIResponseHandler`) -/

/-- `ASGIResponseHandler`'s per-cycle response state. -/
structure ResponseState where
  started : Bool
  status : Option Int
  headers : List (Bytes × Bytes)
deriving DecidableEq, Repr

def initialResponseState : ResponseState :=
  { started := false, status := none, headers := [] }

/-- The two ASGI response message types `_send` handles. -/
inductive AsgiMessage where
  | start (status : Int) (headers : List (Bytes × Bytes)) : AsgiMessage
  | body (body : Bytes) (moreBody : Bool) : AsgiMessage
deriving DecidableEq, Repr

/-- Rendering of `{self.asgi_response_handler.status()}` in the status-line
f-string (`None` renders as the text `None`). -/
def statusRender : Option Int → Bytes
  | none => bs "None"
  | some n => intToDec n

/-- The header block `name: value\r\n` per pair, as `_send` builds it. -/
def joinHeaderLines : List (Bytes × Bytes) → Bytes
  | [] => []
  | (n, v) :: rest => n ++ bs ": " ++ v ++ CRLF ++ joinHeaderLines rest

/-- The full response head `_send` constructs for a `http.response.body`
message: status line, header lines, blank line. -/
def responseHead (st : ResponseState) : Bytes :=
  bs "HTTP/1.1 " ++ statusRender st.status ++ CRLF ++ joinHeaderLines st.headers ++ CRLF

/-- One `_send` call (transport open): `http.response.start` records the
status and headers; `http.response.body` raises `RuntimeError` unless started
and otherwise writes the response head followed by the body bytes.  Returns
the new state and the write payloads of this call.  (The keep-alive decision
on the final body message closes or re-arms timers and is not part of the
write trace.) -/
def sendStep (st : ResponseState) (m : AsgiMessage) :
    Except PyExc (ResponseState × List Bytes) :=
  match m with
  | .start status hdrs =>
    .ok ({ started := true, status := some status, headers := hdrs }, [])
  | .body b _ =>
    if st.started then .ok (st, [responseHead st ++ b])
    else .error .runtimeError

/-- Running a sequence of `_send` calls, accumulating the write trace. -/
def sendRun : ResponseState → List AsgiMessage → Except PyExc (ResponseState × List Bytes)
  | st, [] => .ok (st, [])
  | st, m :: ms =>
    match sendStep st m with
    | .error e => .error e
    | .ok (st1, w) =>
      match sendRun st1 ms with
      | .error e => .error e
      | .ok (st2, ws) => .ok (st2, w ++ ws)

/-! ## Claims -/

/-- C2.  The claim states that `feed_data` never raises and surfaces parse
errors only through state `ERROR`.  The code contradicts it: a
`Content-Length` header whose value is not a valid integer literal reaches
the uncaught `int()` call in `_get_content_length` (parser.py line 171), and
`feed_data` raises `ValueError` instead of transitioning to `ERROR`. -/
theorem feed_data_raises_on_bad_content_length :
    feedData freshBuffer (bs "GET / HTTP/1.1\r\nHost: h\r\nContent-Length: abc\r\n\r\n") =
      .error .valueError := by rfl

/-- C1.  The claim states that an unsupported HTTP version makes the
connection write a 505 response naming the version and close.  The code
contradicts it twice: `data_received` evaluates `protocol_error.value` on an
exception class that defines no `value` attribute (`AttributeError`), and
`send_protocol_error_response` itself calls `bytes` on a `str` without an
encoding (`TypeError`).  On `GET / HTTP/2.0` the handler raises before any
byte is written and the transport is never closed by this path. -/
theorem protocol_error_response_crashes :
    dataReceivedModel freshTransport freshBuffer (bs "GET / HTTP/2.0\r\nHost: h\r\n\r\n") =
      .error .attributeError ∧
    sendProtocolErrorResponse freshTransport (bs "2.0") = .error .typeError := by
  constructor <;> rfl

/-- The C5 failing request: a chunked request whose first chunk-size line is
`-b` (which `int(_, 16)` accepts as `-11`), followed by a correctly
terminated zero chunk reachable through Python's negative-index slicing. -/
def c5Whole : Bytes :=
  bs "POST /u HTTP/1.1\r\nHost: h\r\nTransfer-Encoding: chunked\r\n\r\n-b\r\nAAAAAAA\r\n0\r\n\r\n"

def c5Piece1 : Bytes :=
  bs "POST /u HTTP/1.1\r\nHost: h\r\nTransfer-Encoding: chunked\r\n\r\n-b\r\nAAAAAAA"

def c5Piece2 : Bytes := bs "\r\n0\r\n\r\n"

/-- C5.  The claim states that every splitting of a legal request (one the
parser accepts when fed whole) yields the same terminal state, headers and
body.  The code contradicts it: `c5Whole` fed whole ends in
`CHUNKS_COMPLETE` with body `AAAAAAA`, but fed as `c5Piece1` then `c5Piece2`
the first fragment's chunk walk raises `BadRequestError` inside
`_has_final_chunk` (the negative chunk size makes the trailing-CRLF check
read a different slice for the shorter buffer), leaving the parser stuck in
`ERROR`, where `body()` raises `RuntimeError`. -/
theorem feed_split_divergence :
    c5Piece1 ++ c5Piece2 = c5Whole ∧
    (feedData freshBuffer c5Whole).map (fun s => (s.state, s.error)) =
      .ok (.chunksComplete, none) ∧
    ((feedData freshBuffer c5Whole).bind getRequestBody) = .ok (bs "AAAAAAA") ∧
    (feedList freshBuffer [c5Piece1, c5Piece2]).map (fun s => (s.state, s.error)) =
      .ok (.error, some .badRequest) ∧
    ((feedList freshBuffer [c5Piece1, c5Piece2]).bind getRequestBody) =
      .error .runtimeError := by
  refine ⟨by rfl, by rfl, by rfl, by rfl, by rfl⟩

/-- C3, counterexample.  The claim states that the status line and headers
are written only with the first `http.response.body` message.  On a response
sent as two body messages, the second write also carries the full response
head, not just the body bytes `CD`. -/
theorem response_head_rewritten_on_second_body :
    sendRun initialResponseState
      [.start 200 [(bs "content-type", bs "text/plain")],
       .body (bs "AB") true, .body (bs "CD") false] =
      .ok ({ started := true, status := some 200,
             headers := [(bs "content-type", bs "text/plain")] },
           [bs "HTTP/1.1 200\r\ncontent-type: text/plain\r\n\r\nAB",
            bs "HTTP/1.1 200\r\ncontent-type: text/plain\r\n\r\nCD"]) ∧
    bs "HTTP/1.1 200\r\ncontent-type: text/plain\r\n\r\nCD" ≠ bs "CD" := by
  exact ⟨by rfl, by decide⟩

/-- In a started response state every `http.response.body` message writes
the full response head followed by its body bytes. -/
theorem sendRun_started (st : ResponseState) (hst : st.started = true)
    (bodies : List (Bytes × Bool)) :
    sendRun st (bodies.map fun bm => .body bm.1 bm.2) =
      .ok (st, bodies.map fun bm => responseHead st ++ bm.1) := by
  induction bodies with
  | nil => rfl
  | cons b t ih =>
    simp only [List.map_cons, sendRun, sendStep, hst, if_true, ih]
    simp

/-- C3, amended: after `http.response.start`, EVERY `http.response.body`
message (not only the first) writes the status line and header block
followed by that message's body bytes. -/
theorem every_body_message_writes_head (status : Int) (hdrs : List (Bytes × Bytes))
    (bodies : List (Bytes × Bool)) :
    sendRun initialResponseState
      (.start status hdrs :: bodies.map fun bm => .body bm.1 bm.2) =
      .ok ({ started := true, status := some status, headers := hdrs },
           bodies.map fun bm =>
             responseHead { started := true, status := some status, headers := hdrs } ++ bm.1) := by
  simp only [sendRun, sendStep]
  rw [sendRun_started _ rfl]
  simp

/-- C7, counterexample.  The claim states the decision refuses whenever the
request headers contain a `Connection` header equal to `close`
(case-insensitively).  With headers `[connection: keep-alive,
connection: close]` and request count 0 the code accepts (returns `true`),
because the scan stops at the first `Connection` header. -/
theorem keep_alive_accepts_despite_close_header :
    (bs "connection", bs "close") ∈
      [(bs "connection", bs "keep-alive"), (bs "connection", bs "close")] ∧
    bytesLower (bs "close") = bs "close" ∧
    shouldKeepAlive 0
      [(bs "connection", bs "keep-alive"), (bs "connection", bs "close")]
      (bs "1.1") = true := by
  refine ⟨by decide, by rfl, by rfl⟩

/-- The header scan of `should_keep_alive` returns the value of the first
header named `connection` (in `List.find?` terms). -/
theorem scanConnection_eq_find (hdrs : List (Bytes × Bytes)) :
    scanConnection hdrs =
      (hdrs.find? fun p => bytesLower p.1 = bs "connection").map Prod.snd := by
  induction hdrs with
  | nil => rfl
  | cons h t ih =>
    rw [scanConnection, List.find?]
    by_cases hc : bytesLower h.1 = bs "connection"
    · simp [hc]
    · simp only [hc, if_false, ih]
      simp [List.find?, hc]

/-- C7, amended: the keep-alive decision refuses when
`request_count ≥ MAX_KEEP_ALIVE_REQUESTS` (100); otherwise the FIRST
`Connection` header in scope order decides (refuse exactly when its value is
`close` case-insensitively), and with no `Connection` header it accepts
exactly when the request HTTP version is `1.1`. -/
theorem keep_alive_decision (count : Nat) (hdrs : List (Bytes × Bytes)) (ver : Bytes) :
    shouldKeepAlive count hdrs ver =
      if MAX_KEEP_ALIVE_REQUESTS ≤ count then false
      else
        match hdrs.find? fun p => bytesLower p.1 = bs "connection" with
        | some p => decide (bytesLower p.2 ≠ bs "close")
        | none => decide (ver = bs "1.1") := by
  rw [shouldKeepAlive, scanConnection_eq_find]
  by_cases h : MAX_KEEP_ALIVE_REQUESTS ≤ count
  · simp [ge_iff_le, h]
  · simp only [ge_iff_le, h, if_false]
    cases hf : hdrs.find? fun p => bytesLower p.1 = bs "connection" with
    | none => simp [hf]
    | some p => simp [hf]

/-- C10.  Below the request cap, when the headers are any prefix with no
`connection`-named entry, followed by a `Connection` header with value `v`,
followed by arbitrary later headers, the decision equals
`lower(v) ≠ close` — the later headers (including further `Connection`
headers) are never examined. -/
theorem first_connection_header_decides (count : Nat)
    (pre post : List (Bytes × Bytes)) (nm v : Bytes) (ver : Bytes)
    (hcount : count < MAX_KEEP_ALIVE_REQUESTS)
    (hnm : bytesLower nm = bs "connection")
    (hpre : ∀ p ∈ pre, bytesLower p.1 ≠ bs "connection") :
    shouldKeepAlive count (pre ++ (nm, v) :: post) ver =
      decide (bytesLower v ≠ bs "close") := by
  rw [shouldKeepAlive, if_neg (by omega)]
  have : scanConnection (pre ++ (nm, v) :: post) = some v := by
    induction pre with
    | nil => simp [scanConnection, hnm]
    | cons h t ih =>
      rw [List.cons_append, scanConnection]
      rw [if_neg (by simpa using hpre h (by simp))]
      exact ih (fun p hp => hpre p (by simp [hp]))
  rw [this]

/-- Witness for C10 at a concrete input: a non-`Connection` header, then
`Connection: keep-alive`, then `Connection: close`; the decision follows the
first `Connection` header. -/
theorem first_connection_header_decides_witness :
    shouldKeepAlive 3
      ([(bs "accept", bs "*/*")] ++ (bs "connection", bs "keep-alive") ::
        [(bs "connection", bs "close")]) (bs "1.0") =
      decide (bytesLower (bs "keep-alive") ≠ bs "close") :=
  first_connection_header_decides 3 [(bs "accept", bs "*/*")]
    [(bs "connection", bs "close")] (bs "connection") (bs "keep-alive")
    (bs "1.0") (by decide) (by rfl) (by decide)

/-- C9.  If a single `feed_data` call on a fresh buffer yields a non-chunked
result whose `Content-Length` parsed to a negative `L` (with no error
reported), the parser is already in `COMPLETE` — the buffered body size,
being non-negative, satisfies the `≥ content_length` check at header
completion — and `body()` returns the slice
`data[headers_end : headers_end + L]` computed with the negative length. -/
theorem negative_content_length_completes (d : Bytes) (s : RequestBuffer) (L : Int)
    (hfeed : feedData freshBuffer d = .ok s)
    (hcl : s.contentLength = some L) (hneg : L < 0)
    (hchunk : s.isChunked = false) (herr : s.error = none) :
    s.state = .complete ∧
    getRequestBody s =
      .ok (pySlice s.buffer ((s.headersEnd.getD 0 : Nat) : Int)
        (((s.headersEnd.getD 0 : Nat) : Int) + L)) := by
  rw [feedData] at hfeed
  simp only [freshBuffer, List.nil_append] at hfeed
  rw [tryParse] at hfeed
  simp only at hfeed
  repeat' split at hfeed
  all_goals try cases hfeed
  all_goals try simp_all
  · rename_i x2 i heq2 x1 cl x0 m hich hclr hmeth hL0 hle
    have hne : L ≠ 0 := by omega
    simp [getRequestBody, hne]
  · rename_i x2 i heq2 x1 cl x0 m hich hclr hmeth hL0 hlt
    have hb := pyFind?_bound d CRLFCRLF i heq2
    simp [CRLFCRLF] at hb
    omega

/-- The request of the C9 witness: `Content-Length: -5`. -/
def c9Request : Bytes := bs "POST / HTTP/1.1\r\nHost: h\r\nContent-Length: -5\r\n\r\n"

/-- The buffer state a fresh `feed_data(c9Request)` produces. -/
def c9State : RequestBuffer :=
  { buffer := c9Request, state := .complete, contentLength := some (-5),
    isChunked := false, headersEnd := some 48, error := none }

/-- Witness for C9 at the concrete request with `Content-Length: -5`. -/
theorem negative_content_length_completes_witness :
    c9State.state = .complete ∧
    getRequestBody c9State =
      .ok (pySlice c9State.buffer ((c9State.headersEnd.getD 0 : Nat) : Int)
        (((c9State.headersEnd.getD 0 : Nat) : Int) + (-5))) :=
  negative_content_length_completes c9Request c9State (-5) (by rfl) (by rfl)
    (by decide) (by rfl) (by rfl)

/-- A header block whose request-line protocol token is `FOO/1.1`. -/
def fooRequest : Bytes := bs "GET / FOO/1.1\r\nHost: a\r\n\r\n"

/-- The scope `parse_headers` returns for `fooRequest`. -/
def fooScope : Scope :=
  { method := bs "GET", path := bs "/", rawPath := bs "/", queryString := [],
    headers := [(bs "host", bs "a")], httpVersion := bs "1.1" }

/-- C4, counterexample.  The claim states `parse_headers` fails on every
request line whose protocol token does not begin with `HTTP/`.  The token
`FOO/1.1` does not begin with `HTTP/`, yet `parse_headers` returns a parsed
scope (with `http_version` `1.1`): only the part after `/` is examined. -/
theorem protocol_prefix_not_checked :
    (bs "HTTP/").isPrefixOf (bs "FOO/1.1") = false ∧
    parseHeaders fooRequest = .ok fooScope := by
  exact ⟨by decide, by rfl⟩

/-- C4, amended: of the request line's third token, `parse_headers` validates
only that splitting it at `/` yields exactly two parts and that the second
part is one of `1.0`, `1`, `1.1`; the prefix before the `/` is not checked,
so `FOO/1.1` is accepted. -/
theorem protocol_version_only_checked :
    (∀ h sc, parseHeaders h = .ok sc →
      (pySplit (bs "/") ((pySplit (bs " ") ((pySplit CRLF h).headD [])).getD 2 [])).length = 2 ∧
      (pySplit (bs "/") ((pySplit (bs " ") ((pySplit CRLF h).headD [])).getD 2 [])).getD 1 [] ∈
        [bs "1.0", bs "1", bs "1.1"]) ∧
    parseHeaders fooRequest = .ok fooScope := by
  refine ⟨fun h sc hp => ?_, by rfl⟩
  rw [parseHeaders] at hp
  simp only at hp
  repeat' split at hp
  all_goals try cases hp
  all_goals simp_all
  all_goals tauto

/-- An ordinary valid request used by witnesses. -/
def stdRequest : Bytes := bs "GET / HTTP/1.1\r\nHost: h\r\n\r\n"

/-- The scope `parse_headers` returns for `stdRequest`. -/
def stdScope : Scope :=
  { method := bs "GET", path := bs "/", rawPath := bs "/", queryString := [],
    headers := [(bs "host", bs "h")], httpVersion := bs "1.1" }

/-- Witness for the quantified half of the amended C4 at `stdRequest`. -/
theorem protocol_version_only_checked_witness :
    (pySplit (bs "/") ((pySplit (bs " ") ((pySplit CRLF stdRequest).headD [])).getD 2 [])).length = 2 ∧
    (pySplit (bs "/") ((pySplit (bs " ") ((pySplit CRLF stdRequest).headD [])).getD 2 [])).getD 1 [] ∈
      [bs "1.0", bs "1", bs "1.1"] :=
  protocol_version_only_checked.1 stdRequest stdScope (by rfl)

/-- If the header-line loop reports `has_host = true`, some processed line
has name `host` (stripped, lowercased) and a non-empty raw value after the
first colon. -/
theorem parseHeaderLines_host (ls : List Bytes) (ps : List (Bytes × Bytes))
    (h : parseHeaderLines ls = .ok (ps, true)) :
    ∃ line ∈ ls, ∃ i, pyFind? line (bs ":") = some i ∧
      strLower (pyStrip (line.take i)) = bs "host" ∧ line.drop (i + 1) ≠ [] := by
  induction ls generalizing ps with
  | nil => simp [parseHeaderLines] at h
  | cons line rest ih =>
    rw [parseHeaderLines] at h
    split at h
    · obtain ⟨l, hl, hw⟩ := ih _ h
      exact ⟨l, by simp [hl], hw⟩
    · split at h
      · cases h
      · next j hj =>
        split at h
        · cases h
        · next tp th hTail =>
          simp only [Except.ok.injEq, Prod.mk.injEq] at h
          obtain ⟨hps, hflag⟩ := h
          rw [decide_eq_true_eq] at hflag
          rcases hflag with ⟨hname, hval⟩ | htail
          · exact ⟨line, by simp, j, hj, hname, hval⟩
          · obtain ⟨l, hl, hw⟩ := ih _ (htail ▸ hTail)
            exact ⟨l, by simp [hl], hw⟩

/-- The header block whose only `Host` header has the single space as its raw
value (so its trimmed value is empty). -/
def wsHostRequest : Bytes := bs "GET / HTTP/1.1\r\nHost: \r\n\r\n"

/-- The scope `parse_headers` returns for `wsHostRequest`: the host value is
stripped to the empty byte string. -/
def wsHostScope : Scope :=
  { method := bs "GET", path := bs "/", rawPath := bs "/", queryString := [],
    headers := [(bs "host", [])], httpVersion := bs "1.1" }

/-- C8, counterexample.  The claim states a header block whose only `Host`
header is solely whitespace is rejected with `BAD_REQUEST`.  The code checks
the RAW value (before stripping) against the empty string, so `Host: ` (one
space) counts as a host: `parse_headers` succeeds, with trimmed host value
empty in the scope. -/
theorem whitespace_host_accepted :
    pyStrip (bs " ") = [] ∧
    parseHeaders wsHostRequest = .ok wsHostScope := by
  exact ⟨by decide, by rfl⟩

/-- C8, amended: `parse_headers` succeeds only when some header line has name
`host` (stripped, lowercased) with a non-empty RAW value after the first
colon — the value is not stripped before the emptiness test, so a
whitespace-only `Host` value passes. -/
theorem host_raw_value_required :
    (∀ h sc, parseHeaders h = .ok sc →
      ∃ line ∈ (pySplit CRLF h).tail, ∃ i, pyFind? line (bs ":") = some i ∧
        strLower (pyStrip (line.take i)) = bs "host" ∧ line.drop (i + 1) ≠ []) ∧
    parseHeaders wsHostRequest = .ok wsHostScope := by
  refine ⟨fun h sc hp => ?_, by rfl⟩
  rw [parseHeaders] at hp
  simp only at hp
  repeat' split at hp
  all_goals try cases hp
  all_goals try simp_all
  all_goals rename_i a1 a2 x tp th a3 a4 a5 a6 heqL hth hq
  all_goals have hres := parseHeaderLines_host _ tp heqL
  all_goals simpa using hres

/-- Witness for the quantified half of the amended C8 at `stdRequest`. -/
theorem host_raw_value_required_witness :
    ∃ line ∈ (pySplit CRLF stdRequest).tail, ∃ i, pyFind? line (bs ":") = some i ∧
      strLower (pyStrip (line.take i)) = bs "host" ∧ line.drop (i + 1) ≠ [] :=
  host_raw_value_required.1 stdRequest stdScope (by rfl)

/-- The request of the C6 counterexample: `Content-Length: -1`. -/
def negCLRequest : Bytes := bs "POST / HTTP/1.1\r\nHost: h\r\nContent-Length: -1\r\n\r\n"

/-- C6, counterexample.  The claim states `body()` returns exactly `L` bytes
for every request declaring `Content-Length: L` that reached `COMPLETE`.
A declared length of `-1` reaches `COMPLETE` (the non-negative buffered size
already exceeds it), and `body()` returns 0 bytes, not `-1` bytes. -/
theorem body_empty_on_negative_content_length :
    (feedData freshBuffer negCLRequest).map (fun s => (s.state, s.contentLength)) =
      .ok (.complete, some (-1)) ∧
    ((feedData freshBuffer negCLRequest).bind getRequestBody).map
      (fun b => (b.length : Int)) = .ok 0 ∧
    (0 : Int) ≠ -1 := by
  exact ⟨by rfl, by rfl, by decide⟩

/-- Reachability invariant for C6: in state `COMPLETE` with a positive
declared content length, the header end is set and the buffer holds at least
`content_length` bytes past it; in state `RECEIVING_BODY` the header end is
set. -/
def lengthInv (s : RequestBuffer) : Prop :=
  (s.state = .receivingBody → s.headersEnd ≠ none) ∧
  (s.state = .complete → ∀ L : Int, s.contentLength = some L → 0 < L →
    ∃ he, s.headersEnd = some he ∧ (he : Int) + L ≤ (s.buffer.length : Int))

theorem lengthInv_fresh : lengthInv freshBuffer := by
  constructor <;> intro h <;> simp [freshBuffer] at h

/-- `feed_data` preserves `lengthInv`: the transitions into `COMPLETE` with a
positive content length all check `buffered body size ≥ content_length`
first, and the buffer only grows afterwards. -/
theorem lengthInv_feedData (s s' : RequestBuffer) (d : Bytes)
    (hinv : lengthInv s) (h : feedData s d = .ok s') : lengthInv s' := by
  obtain ⟨buf, st, cl, ich, he, err⟩ := s
  obtain ⟨h1, h3⟩ := hinv
  simp only at h1 h3
  rw [feedData] at h
  cases st
  case receivingHeaders =>
    rw [tryParse] at h
    simp only at h
    repeat' split at h
    all_goals try cases h
    all_goals constructor
    all_goals intro hst
    all_goals simp_all
    all_goals intro L hL hpos
    · rename_i x2 i heq2 x1 clr x0 m hich hclr hmeth hreq hzero
      have hb := pyFind?_bound _ _ _ heq2
      simp [CRLFCRLF, List.length_append] at hb
      rcases hzero with ⟨hn, _⟩ | h0
      · rw [hn] at hL; cases hL
      · rw [h0] at hL
        cases hL
        omega
    · rename_i x2 i heq2 x1 clr x0 m hich hclr hmeth hnz hge
      rw [hL] at hge
      simp only [Option.getD_some] at hge
      omega
  case receivingBody =>
    rw [tryParse] at h
    simp only at h
    split at h
    · next hcond =>
      cases h
      constructor
      · intro hst; simp at hst
      · intro _ L hL hpos
        dsimp only at hL ⊢
        obtain ⟨h0, hh0⟩ := Option.ne_none_iff_exists'.mp (h1 rfl)
        refine ⟨h0, by simpa using hh0, ?_⟩
        rcases hcond with hn | hge
        · rw [hL] at hn; cases hn
        · rw [hL, hh0] at hge
          simp only [Option.getD_some] at hge
          simp only [List.length_append] at hge ⊢
          omega
    · next hcond =>
      cases h
      constructor
      · intro _; exact h1 rfl
      · intro hst; simp at hst
  case receivingChunks =>
    rw [tryParse] at h
    simp only at h
    repeat' split at h
    all_goals cases h
    all_goals constructor
    all_goals intro hst
    all_goals simp_all
  case complete =>
    rw [tryParse] at h
    simp only at h
    cases h
    constructor
    · intro hst; simp at hst
    · intro _ L hL hpos
      dsimp only at hL ⊢
      obtain ⟨h0, hh0, hb⟩ := h3 rfl L hL hpos
      refine ⟨h0, by simpa using hh0, ?_⟩
      simp only [List.length_append]
      push_cast at hb ⊢
      omega
  case chunksComplete =>
    rw [tryParse] at h
    simp only at h
    cases h
    constructor <;> intro hst <;> simp_all
  case error =>
    rw [tryParse] at h
    simp only at h
    cases h
    constructor <;> intro hst <;> simp_all

theorem lengthInv_feedList (ps : List Bytes) (s s' : RequestBuffer)
    (hinv : lengthInv s) (h : feedList s ps = .ok s') : lengthInv s' := by
  induction ps generalizing s with
  | nil => rw [feedList] at h; cases h; exact hinv
  | cons p rest ih =>
    rw [feedList] at h
    split at h
    · cases h
    · next s1 hs1 => exact ih s1 (lengthInv_feedData _ _ _ hinv hs1) h

/-- The Python slice `l[a : a + L]` has exactly `L` elements when
`0 < L` and `a + L ≤ len(l)`. -/
theorem pySlice_length (l : Bytes) (a : Nat) (L : Int) (hL : 0 < L)
    (hab : (a : Int) + L ≤ (l.length : Int)) :
    ((pySlice l (a : Int) ((a : Int) + L)).length : Int) = L := by
  have h1 : pySliceIdx l.length (a : Int) = a := by
    rw [pySliceIdx, if_neg (by omega)]
    omega
  have h2 : pySliceIdx l.length ((a : Int) + L) = a + L.toNat := by
    rw [pySliceIdx, if_neg (by omega)]
    omega
  rw [pySlice, h1, h2]
  simp only [List.length_drop, List.length_take]
  omega

/-- C6, amended: for every request fed in any fragments whose parser reached
`COMPLETE` non-chunked with a declared NON-NEGATIVE `Content-Length L`,
`body()` returns exactly `L` bytes (excess buffered bytes are not included).
Negative declared lengths (outside this statement) break the original claim:
see the counterexample, where the returned length differs from `L`. -/
theorem body_length_matches_content_length (ps : List Bytes) (s : RequestBuffer)
    (L : Int) (hfeed : feedList freshBuffer ps = .ok s)
    (hst : s.state = .complete) (hch : s.isChunked = false)
    (hcl : s.contentLength = some L) (hL : 0 ≤ L) :
    ∃ b, getRequestBody s = .ok b ∧ (b.length : Int) = L := by
  have hinv := lengthInv_feedList ps freshBuffer s lengthInv_fresh hfeed
  rcases eq_or_lt_of_le hL with h0 | hpos
  · obtain rfl : L = 0 := h0.symm
    refine ⟨[], ?_, by simp⟩
    rw [getRequestBody]
    simp [hst, hcl]
  · obtain ⟨he, hhe, hb⟩ := hinv.2 hst L hcl hpos
    have hne : ¬(L = 0) := by omega
    refine ⟨pySlice s.buffer (he : Int) ((he : Int) + L), ?_, ?_⟩
    · rw [getRequestBody]
      simp [hst, hcl, hne, hhe]
    · exact pySlice_length s.buffer he L hpos hb

/-- The two fragments of the C6 witness: headers declaring
`Content-Length: 2`, then the 2-byte body. -/
def c6Pieces : List Bytes :=
  [bs "POST / HTTP/1.1\r\nHost: h\r\nContent-Length: 2\r\n\r\n", bs "ab"]

/-- The buffer state feeding `c6Pieces` produces. -/
def c6State : RequestBuffer :=
  { buffer := bs "POST / HTTP/1.1\r\nHost: h\r\nContent-Length: 2\r\n\r\n" ++ bs "ab",
    state := .complete, contentLength := some 2, isChunked := false,
    headersEnd := some 47, error := none }

/-- Witness for the amended C6 at a concrete two-fragment request. -/
theorem body_length_matches_content_length_witness :
    ∃ b, getRequestBody c6State = .ok b ∧ (b.length : Int) = 2 :=
  body_length_matches_content_length c6Pieces c6State 2 (by rfl) rfl rfl rfl
    (by omega)
